import Mathlib

/-!
Verification of the Property Search application
(src/property-search-app/src/App.jsx).

The development shallowly embeds the filtering, favourites, drag-and-drop
and image-gallery logic of the application.  JavaScript strings are
modelled by Lean `String`; the filter fields of the form are strings
exactly as in the React state; `parseInt` is modelled by an
`Option Int`-valued parser where `none` stands for the JavaScript `NaN`;
comparisons against `NaN` are `false`, as in JavaScript.
-/

namespace PropertySearch

/-- A property record, with the fields the filtering / favourites /
gallery logic touches.  `images` is `Option (List String)` because the
JSX distinguishes a missing `images` field (`undefined`, falsy) from a
present array (always truthy in JavaScript, even when empty). -/
structure Property where
  id : Nat
  type : String
  price : Int
  bedrooms : Int
  location : String
  images : Option (List String)
  deriving DecidableEq, Repr

/-- The search-form state: five string fields, each initialised to the
empty string, matching the `useState` filter object of App.jsx. -/
structure Filters where
  type : String
  minPrice : String
  maxPrice : String
  bedrooms : String
  location : String
  deriving DecidableEq, Repr

/-- The initial / reset filter state: every field the empty string. -/
def emptyFilters : Filters := ⟨"", "", "", "", ""⟩

/-- JavaScript truthiness of a string: truthy iff non-empty. -/
def truthy (s : String) : Bool := !s.isEmpty

/-- Lower-casing of a string, modelling `toLowerCase` on the ASCII range
(character-wise `Char.toLower`). -/
def strLower (s : String) : String := s.toLower

/-- Test whether the first character list begins the second one. -/
def starts : List Char → List Char → Bool
  | [], _ => true
  | _ :: _, [] => false
  | a :: as, b :: bs => a == b && starts as bs

/-- Test whether `needle` occurs as a contiguous substring of `hay`,
modelling the JavaScript `includes` method on character lists. -/
def hasSub : List Char → List Char → Bool
  | [], needle => starts needle []
  | c :: rest, needle => starts needle (c :: rest) || hasSub rest needle

/-- Model of the JavaScript expression `hay.includes(needle)`. -/
def includesJS (hay needle : String) : Bool := hasSub hay.data needle.data

/-- Accumulate the decimal value of a run of leading digits, stopping at
the first non-digit, as `parseInt` does. -/
def parseDigits : List Char → Nat → Nat
  | [], acc => acc
  | c :: rest, acc =>
      if c.isDigit then parseDigits rest (acc * 10 + (c.toNat - 48)) else acc

/-- Characters `parseInt` skips before the number (JavaScript trims
leading whitespace). -/
def isWsJS (c : Char) : Bool := c == ' ' || c == '\t' || c == '\n' || c == '\r'

/-- Model of the JavaScript `parseInt(s)` (radix 10): skip leading
whitespace, accept an optional sign, then read leading decimal digits;
if no digit follows, the result is `NaN`, modelled as `none`. -/
def parseIntJS (s : String) : Option Int :=
  match s.data.dropWhile isWsJS with
  | '-' :: c :: rest =>
      if c.isDigit then some (-(Int.ofNat (parseDigits (c :: rest) 0))) else none
  | '+' :: c :: rest =>
      if c.isDigit then some (Int.ofNat (parseDigits (c :: rest) 0)) else none
  | c :: rest =>
      if c.isDigit then some (Int.ofNat (parseDigits (c :: rest) 0)) else none
  | [] => none

/-- The JavaScript comparison `a >= b` where `b` may be `NaN` (`none`):
any comparison with `NaN` is false. -/
def geJS (a : Int) (b : Option Int) : Bool :=
  match b with
  | some v => a ≥ v
  | none => false

/-- The JavaScript comparison `a <= b` where `b` may be `NaN` (`none`). -/
def leJS (a : Int) (b : Option Int) : Bool :=
  match b with
  | some v => a ≤ v
  | none => false

/-- The `handleSearch` handler of App.jsx (lines 76 to 97): starting
from a copy of the full catalog, each truthy filter field narrows the
result list with an array `filter`; the final list becomes the new
`filteredProperties`. -/
def handleSearch (properties : List Property) (filters : Filters) : List Property :=
  let results := properties
  let results := if truthy filters.type then
      results.filter (fun p => strLower p.type == strLower filters.type)
    else results
  let results := if truthy filters.minPrice then
      results.filter (fun p => geJS p.price (parseIntJS filters.minPrice))
    else results
  let results := if truthy filters.maxPrice then
      results.filter (fun p => leJS p.price (parseIntJS filters.maxPrice))
    else results
  let results := if truthy filters.bedrooms then
      results.filter (fun p => geJS p.bedrooms (parseIntJS filters.bedrooms))
    else results
  let results := if truthy filters.location then
      results.filter (fun p =>
        includesJS (strLower p.location) (strLower filters.location))
    else results
  results

/-- Spec-side predicate: the conjunction of the active criteria
(case-insensitive type equality, inclusive min/max price bounds,
bedrooms as a minimum, case-insensitive location substring); a criterion
whose field is absent (empty string, hence falsy) imposes no constraint. -/
def satisfiesAll (filters : Filters) (p : Property) : Bool :=
  (!truthy filters.type || strLower p.type == strLower filters.type) &&
  ((!truthy filters.minPrice || geJS p.price (parseIntJS filters.minPrice)) &&
  ((!truthy filters.maxPrice || leJS p.price (parseIntJS filters.maxPrice)) &&
  ((!truthy filters.bedrooms || geJS p.bedrooms (parseIntJS filters.bedrooms)) &&
  (!truthy filters.location ||
    includesJS (strLower p.location) (strLower filters.location)))))

/-! ## Favourites store (App.jsx lines 106 to 122, 147 to 153) -/

/-- The `addToFavourites` handler (lines 106 to 110): append the
property unless an entry with the same identifier is already present
(`if (!favourites.find(f => f.id === property.id)) setFavourites([...favourites, property])`). -/
def addToFavourites (favourites : List Property) (property : Property) : List Property :=
  if (favourites.find? (fun f => f.id == property.id)).isSome then favourites
  else favourites ++ [property]

/-- The `removeFromFavourites` handler (lines 113 to 115):
`favourites.filter(f => f.id !== id)`. -/
def removeFromFavourites (favourites : List Property) (id : Nat) : List Property :=
  favourites.filter (fun f => f.id != id)

/-- The `clearFavourites` handler (lines 118 to 122): empty the list
only when the user confirms the `window.confirm` dialog; otherwise leave
it unchanged. -/
def clearFavourites (confirmed : Bool) (favourites : List Property) : List Property :=
  if confirmed then [] else favourites

/-- The `onToggleFavourite` callback (lines 147 to 153 and 367 to 373):
remove when an entry with the identifier is present
(`favourites.some(...)`), add otherwise. -/
def onToggleFavourite (favourites : List Property) (property : Property) : List Property :=
  if favourites.any (fun f => f.id == property.id) then
    removeFromFavourites favourites property.id
  else addToFavourites favourites property

/-- Membership of an identifier in the favourites, as the JSX tests it
(`favourites.some(f => f.id === id)`). -/
def memberId (favs : List Property) (i : Nat) : Bool :=
  favs.any (fun f => f.id == i)

/-! ## Drag-and-drop state machine (App.jsx lines 124 to 138)

The component keeps two pieces of state the drag handlers touch:
`favourites` and `draggedProperty`.  The JSX registers `onDragStart` on
the cards, and `onDragOver` / `onDrop` on the favourites card and on the
removal zone; no `onDragEnd` handler is registered anywhere, so
releasing a drag outside the two drop zones runs no handler at all. -/

/-- The state the drag-and-drop and favourites handlers read and write. -/
structure AppState where
  favourites : List Property
  dragged : Option Property
  deriving DecidableEq, Repr

/-- The `handleDragStart` handler (line 125): `setDraggedProperty(property)`. -/
def handleDragStart (s : AppState) (property : Property) : AppState :=
  { s with dragged := some property }

/-- The `handleDropOnFavourites` handler (lines 127 to 133): if a
property is being dragged and no entry with its identifier is present,
append it; in any case clear the dragged reference. -/
def handleDropOnFavourites (s : AppState) : AppState :=
  match s.dragged with
  | some p =>
      { favourites :=
          if (s.favourites.find? (fun f => f.id == p.id)).isSome then s.favourites
          else s.favourites ++ [p],
        dragged := none }
  | none => { s with dragged := none }

/-- The `handleDropRemove` handler (lines 134 to 138): if a property is
being dragged, remove its identifier from the favourites; in any case
clear the dragged reference. -/
def handleDropRemove (s : AppState) : AppState :=
  match s.dragged with
  | some p => { favourites := removeFromFavourites s.favourites p.id, dragged := none }
  | none => { s with dragged := none }

/-- The user events that can mutate the favourites / drag state. -/
inductive Event where
  | clickToggle (p : Property)
  | removeClick (id : Nat)
  | clearAll (confirmed : Bool)
  | dragStart (p : Property)
  | dropOnFavourites
  | dropRemove
  | releaseNoTarget
  deriving DecidableEq, Repr

/-- One event-dispatch step.  `releaseNoTarget` models releasing a drag
outside both drop zones: the source registers no `onDragEnd` (or any
other) handler for that event, so no state update runs. -/
def step (s : AppState) : Event → AppState
  | Event.clickToggle p => { s with favourites := onToggleFavourite s.favourites p }
  | Event.removeClick id => { s with favourites := removeFromFavourites s.favourites id }
  | Event.clearAll c => { s with favourites := clearFavourites c s.favourites }
  | Event.dragStart p => handleDragStart s p
  | Event.dropOnFavourites => handleDropOnFavourites s
  | Event.dropRemove => handleDropRemove s
  | Event.releaseNoTarget => s

/-- The startup state: favourites initialised to `[]`, nothing dragged. -/
def initState : AppState := ⟨[], none⟩

/-- Run a sequence of events from a state. -/
def run (s : AppState) (es : List Event) : AppState := es.foldl step s

/-- The favourites invariant: no two entries share an identifier. -/
def NoDupIds (favourites : List Property) : Prop :=
  (favourites.map Property.id).Nodup

instance (favourites : List Property) : Decidable (NoDupIds favourites) := by
  unfold NoDupIds; infer_instance

/-! ## Detail view image gallery (App.jsx lines 457 to 464) -/

/-- The fallback image path used by the detail view. -/
def defaultImage : String := "/images/default.jpg"

/-- The image list the detail view renders (line 461):
`const images = property.images || [defaultImage]`.
The JavaScript `||` operator returns its right operand only when the
left one is falsy; `undefined` (a missing field) is falsy, while an
array — even an empty one — is truthy, so a present empty array is kept
as-is. -/
def detailImages (property : Property) : List String :=
  match property.images with
  | some arr => arr
  | none => [defaultImage]

/-- The `nextImage` handler (line 463):
`(currentImageIndex + 1) % images.length`. -/
def nextImage (images : List String) (i : Nat) : Nat :=
  (i + 1) % images.length

/-- The `prevImage` handler (line 464):
`(currentImageIndex - 1 + images.length) % images.length`.  For a list
of length at least 1 and `i : Nat` the JavaScript value of
`i - 1 + length` is the non-negative integer `i + length - 1`, so the
`Nat` expression agrees with the JavaScript one on every input the
claims quantify over. -/
def prevImage (images : List String) (i : Nat) : Nat :=
  (i + images.length - 1) % images.length

/-! ## Concrete sample data used by witnesses and counterexamples -/

/-- A sample property (identifier 1). -/
def pA : Property := ⟨1, "House", 100000, 3, "London, UK", some ["a.jpg"]⟩

/-- A sample property with a present-but-empty images array. -/
def pB : Property := ⟨2, "Flat", 250000, 2, "Leeds", some []⟩

/-- A sample property with no images field. -/
def pC : Property := ⟨3, "Bungalow", 400000, 4, "York", none⟩

/-- Filters whose `minPrice` field holds a non-numeric string. -/
def fsBad : Filters := { emptyFilters with minPrice := "abc" }

/-! ## Helper lemmas -/

/-- A conditional filter stage of `handleSearch` is an unconditional
filter whose predicate holds vacuously when the stage is inactive. -/
theorem filter_stage {α : Type} (b : Bool) (p : α → Bool) (l : List α) :
    (if b then l.filter p else l) = l.filter (fun a => !b || p a) := by
  cases b <;> simp

/-- Reassociating and reversing a five-fold Boolean conjunction. -/
theorem bool_and_rev (a b c d e : Bool) :
    ((((e && d) && c) && b) && a) = (a && (b && (c && (d && e)))) := by
  cases a <;> cases b <;> cases c <;> cases d <;> cases e <;> rfl

/-- The five sequential filter stages of `handleSearch` collapse to one
filter by the conjunction of the active predicates. -/
theorem handleSearch_eq_filter (ps : List Property) (fs : Filters) :
    handleSearch ps fs = ps.filter (satisfiesAll fs) := by
  show (if truthy fs.location then _ else _) = _
  rw [filter_stage, filter_stage, filter_stage, filter_stage, filter_stage,
    List.filter_filter, List.filter_filter, List.filter_filter, List.filter_filter]
  apply List.filter_congr
  intro a _
  simp only [satisfiesAll]
  exact bool_and_rev _ _ _ _ _

/-- With every filter field empty, `handleSearch` is the identity. -/
theorem handleSearch_emptyFilters (ps : List Property) :
    handleSearch ps emptyFilters = ps := by
  have ht : truthy "" = false := by decide
  simp [handleSearch, emptyFilters, ht]

/-- The find-by-identifier probe succeeds exactly when the identifier
occurs among the favourite identifiers. -/
theorem find?_id_isSome_iff (favs : List Property) (i : Nat) :
    (favs.find? (fun f => f.id == i)).isSome = true ↔ i ∈ favs.map Property.id := by
  rw [List.find?_isSome]
  simp [List.mem_map]

/-- `addToFavourites` preserves the no-duplicate-identifier invariant. -/
theorem noDupIds_add (favs : List Property) (p : Property) (h : NoDupIds favs) :
    NoDupIds (addToFavourites favs p) := by
  unfold addToFavourites
  cases hf : (favs.find? (fun f => f.id == p.id)).isSome
  · rw [if_neg (by simp [hf])]
    unfold NoDupIds at h ⊢
    rw [List.map_append, List.nodup_append]
    refine ⟨h, List.nodup_singleton _, ?_⟩
    intro a ha hb
    simp only [List.map_cons, List.map_nil, List.mem_singleton] at hb
    subst hb
    rw [← find?_id_isSome_iff, hf] at ha
    cases ha
  · rw [if_pos (by simp [hf])]
    exact h

/-- `removeFromFavourites` preserves the no-duplicate-identifier
invariant (the result is a sublist). -/
theorem noDupIds_remove (favs : List Property) (i : Nat) (h : NoDupIds favs) :
    NoDupIds (removeFromFavourites favs i) := by
  unfold NoDupIds at h ⊢
  unfold removeFromFavourites
  exact List.Nodup.sublist (List.Sublist.map _ (List.filter_sublist favs)) h

/-- `onToggleFavourite` preserves the no-duplicate-identifier invariant. -/
theorem noDupIds_toggle (favs : List Property) (p : Property) (h : NoDupIds favs) :
    NoDupIds (onToggleFavourite favs p) := by
  unfold onToggleFavourite
  cases hf : favs.any (fun f => f.id == p.id)
  · rw [if_neg (by simp [hf])]
    exact noDupIds_add favs p h
  · rw [if_pos (by simp [hf])]
    exact noDupIds_remove favs p.id h

/-- Every event, on every mutation path, preserves the
no-duplicate-identifier invariant. -/
theorem noDupIds_step (s : AppState) (e : Event) (h : NoDupIds s.favourites) :
    NoDupIds (step s e).favourites := by
  cases e with
  | clickToggle p => exact noDupIds_toggle s.favourites p h
  | removeClick i => exact noDupIds_remove s.favourites i h
  | clearAll c =>
      cases c
      · exact h
      · simp [step, clearFavourites, NoDupIds]
  | dragStart p => exact h
  | dropOnFavourites =>
      show NoDupIds (handleDropOnFavourites s).favourites
      unfold handleDropOnFavourites
      cases hd : s.dragged with
      | some p => exact noDupIds_add s.favourites p h
      | none => exact h
  | dropRemove =>
      show NoDupIds (handleDropRemove s).favourites
      unfold handleDropRemove
      cases hd : s.dragged with
      | some p => exact noDupIds_remove s.favourites p.id h
      | none => exact h
  | releaseNoTarget => exact h

/-- Every state reachable from startup satisfies the
no-duplicate-identifier invariant. -/
theorem noDupIds_run (es : List Event) : NoDupIds (run initState es).favourites := by
  have key : ∀ (l : List Event) (s : AppState),
      NoDupIds s.favourites → NoDupIds (run s l).favourites := by
    intro l
    induction l with
    | nil => intro s h; exact h
    | cons e rest ih => intro s h; exact ih (step s e) (noDupIds_step s e h)
  exact key es initState (by decide)

/-- Removing an identifier leaves no member with that identifier. -/
theorem memberId_remove (favs : List Property) (i : Nat) :
    memberId (removeFromFavourites favs i) i = false := by
  unfold memberId removeFromFavourites
  rw [Bool.eq_false_iff]
  intro hc
  rcases List.any_eq_true.mp hc with ⟨f, hf, hbeq⟩
  rcases List.mem_filter.mp hf with ⟨-, hne⟩
  exact bne_iff_ne.mp hne (by simpa using hbeq)

/-- After appending a property, its identifier is a member. -/
theorem memberId_append_self (favs : List Property) (p : Property) :
    memberId (favs ++ [p]) p.id = true := by
  unfold memberId
  rw [List.any_eq_true]
  exact ⟨p, by simp⟩

/-- When no element satisfies the probe, the find probe fails. -/
theorem find?_isSome_false_of_any_false (favs : List Property) (q : Property → Bool)
    (h : favs.any q = false) : (favs.find? q).isSome = false := by
  rw [Bool.eq_false_iff]
  intro hc
  rcases List.find?_isSome.mp hc with ⟨f, hf, hq⟩
  have := List.any_eq_true.mpr ⟨f, hf, hq⟩
  rw [h] at this
  cases this

/-- Iterating `nextImage` walks the index cyclically. -/
theorem nextImage_iter (images : List String) (k : Nat) :
    ∀ i : Nat, i < images.length →
      (nextImage images)^[k] i = (i + k) % images.length := by
  induction k with
  | zero =>
      intro i h
      simpa using (Nat.mod_eq_of_lt h).symm
  | succ k ih =>
      intro i h
      have hN : 0 < images.length := Nat.lt_of_le_of_lt (Nat.zero_le i) h
      rw [Function.iterate_succ_apply]
      have hlt : nextImage images i < images.length := Nat.mod_lt _ hN
      rw [ih (nextImage images i) hlt]
      unfold nextImage
      rw [Nat.mod_add_mod]
      congr 1
      omega

/-! ## Claim theorems -/

/-- C1: `handleSearch` returns exactly the sub-list of the catalog kept
by the conjunction of the active predicates — case-insensitive type
equality, inclusive `minPrice` / `maxPrice` bounds, bedrooms as a
minimum, case-insensitive location substring — in the original relative
order of the catalog (`List.filter` preserves order); with every
criteria field absent it returns the full catalog. -/
theorem search_is_conjunctive_filter (ps : List Property) (fs : Filters) :
    handleSearch ps fs = ps.filter (satisfiesAll fs) ∧
    handleSearch ps emptyFilters = ps :=
  ⟨handleSearch_eq_filter ps fs, handleSearch_emptyFilters ps⟩

/-- C2 counterexample: with `minPrice` set to the non-empty non-numeric
string abc, the search over the one-property catalog `[pA]` returns
`[]`, not the full-catalog result `[pA]` obtained when the field is
empty — the field is not treated as absent. -/
theorem nonNumeric_counterexample :
    handleSearch [pA] fsBad ≠ handleSearch [pA] emptyFilters ∧
    handleSearch [pA] fsBad = [] ∧ handleSearch [pA] emptyFilters = [pA] := by
  decide

/-- C2 amended: a non-empty `minPrice`, `maxPrice` or `bedrooms` field
that `parseInt` cannot parse (no leading digits, hence `NaN`) makes the
corresponding comparison false for every property, so the search returns
the empty list; no error is raised (the function is total). -/
theorem search_nonNumeric_returns_empty (ps : List Property) (fs : Filters)
    (h : (truthy fs.minPrice = true ∧ parseIntJS fs.minPrice = none) ∨
         (truthy fs.maxPrice = true ∧ parseIntJS fs.maxPrice = none) ∨
         (truthy fs.bedrooms = true ∧ parseIntJS fs.bedrooms = none)) :
    handleSearch ps fs = [] := by
  rw [handleSearch_eq_filter, List.filter_eq_nil_iff]
  intro a _
  rcases h with ⟨h1, h2⟩ | ⟨h1, h2⟩ | ⟨h1, h2⟩ <;>
    simp [satisfiesAll, h1, h2, geJS, leJS]

/-- Witness for the amended C2 statement at a concrete input. -/
theorem search_nonNumeric_returns_empty_witness :
    handleSearch [pA] fsBad = [] :=
  search_nonNumeric_returns_empty [pA] fsBad (Or.inl ⟨by decide, by decide⟩)

/-- C3: at the failing input — a property whose images array is present
but empty — the detail view keeps the empty array instead of
substituting the fallback (an array is truthy in JavaScript even when
empty, so `property.images || [defaultImage]` does not fall back),
leaving no valid image at the displayed index 0; the fallback is used
only when the field is missing. -/
theorem detailImages_empty_array_no_fallback :
    detailImages pB = [] ∧ (detailImages pB).get? 0 = none ∧
    detailImages pC = [defaultImage] := by decide

/-- C4: the favourites list never contains two entries with the same
identifier — the invariant is preserved by every mutation path (click
toggle, remove, clear, drag start, drop on the favourites region, drop
on the removal region, release without target), and hence holds in every
state reachable from the startup state. -/
theorem favourites_no_duplicate_ids :
    (∀ (s : AppState) (e : Event), NoDupIds s.favourites → NoDupIds (step s e).favourites) ∧
    (∀ es : List Event, NoDupIds (run initState es).favourites) :=
  ⟨noDupIds_step, noDupIds_run⟩

/-- Witness for C4 at a concrete state, event, and event sequence. -/
theorem favourites_no_duplicate_ids_witness :
    NoDupIds (step ⟨[pA], none⟩ (Event.clickToggle pB)).favourites ∧
    NoDupIds (run initState
      [Event.clickToggle pA, Event.dragStart pA, Event.dropOnFavourites]).favourites :=
  ⟨favourites_no_duplicate_ids.1 ⟨[pA], none⟩ (Event.clickToggle pB) (by decide),
   favourites_no_duplicate_ids.2
     [Event.clickToggle pA, Event.dragStart pA, Event.dropOnFavourites]⟩

/-- C5 counterexample: in the state where `pA` is being dragged,
releasing without a valid drop target leaves the dragged reference set
to `pA` — it is not cleared to `none` as the claim states, because no
handler is registered for that event in the source. -/
theorem release_counterexample :
    (step ⟨[], some pA⟩ Event.releaseNoTarget).dragged = some pA ∧
    some pA ≠ (none : Option Property) := by decide

/-- C5 amended: releasing the dragged property without a valid drop
target runs no handler (the source registers none for that event), so
the entire state is unchanged: the favourites set is untouched and the
dragged reference is retained — not cleared — until the next drag or
drop event. -/
theorem release_no_target_is_frame (s : AppState) :
    (step s Event.releaseNoTarget).favourites = s.favourites ∧
    (step s Event.releaseNoTarget).dragged = s.dragged :=
  ⟨rfl, rfl⟩

/-- C6: `addToFavourites` is idempotent — adding the same property twice
yields the same list as adding it once — and adding a property whose
identifier is already present is a no-op. -/
theorem add_idempotent (favs : List Property) (p : Property) :
    addToFavourites (addToFavourites favs p) p = addToFavourites favs p ∧
    ((favs.find? (fun f => f.id == p.id)).isSome = true → addToFavourites favs p = favs) := by
  constructor
  · cases hf : (favs.find? (fun f => f.id == p.id)).isSome
    · have h1 : addToFavourites favs p = favs ++ [p] := by
        unfold addToFavourites
        rw [if_neg (by simp [hf])]
      rw [h1]
      unfold addToFavourites
      rw [if_pos]
      rw [List.find?_isSome]
      exact ⟨p, by simp⟩
    · have h1 : addToFavourites favs p = favs := by
        unfold addToFavourites
        rw [if_pos (by simp [hf])]
      rw [h1]
      exact h1
  · intro h
    unfold addToFavourites
    rw [if_pos h]

/-- Witness for C6 at concrete lists. -/
theorem add_idempotent_witness :
    addToFavourites (addToFavourites [] pA) pA = addToFavourites [] pA ∧
    addToFavourites [pA] pA = [pA] :=
  ⟨(add_idempotent [] pA).1, (add_idempotent [pA] pA).2 (by decide)⟩

/-- C7: the click / programmatic toggle is self-inverse with respect to
membership — two consecutive toggles with the same property restore
whether the identifier of that property is a member of the favourites. -/
theorem toggle_self_inverse (favs : List Property) (p : Property) :
    memberId (onToggleFavourite (onToggleFavourite favs p) p) p.id = memberId favs p.id := by
  cases hm : favs.any (fun f => f.id == p.id)
  · -- absent: the first toggle adds, the second removes
    have h1 : onToggleFavourite favs p = favs ++ [p] := by
      unfold onToggleFavourite
      rw [if_neg (by simp [hm])]
      unfold addToFavourites
      rw [if_neg (by simp [find?_isSome_false_of_any_false favs _ hm])]
    have h2 : ((favs ++ [p]).any fun f => f.id == p.id) = true := memberId_append_self favs p
    have h3 : onToggleFavourite (favs ++ [p]) p = removeFromFavourites (favs ++ [p]) p.id := by
      unfold onToggleFavourite
      rw [if_pos h2]
    rw [h1, h3, memberId_remove]
    unfold memberId
    rw [hm]
  · -- present: the first toggle removes, the second adds
    have h1 : onToggleFavourite favs p = removeFromFavourites favs p.id := by
      unfold onToggleFavourite
      rw [if_pos (by simp [hm])]
    have hany : (removeFromFavourites favs p.id).any (fun f => f.id == p.id) = false :=
      memberId_remove favs p.id
    have h3 : onToggleFavourite (removeFromFavourites favs p.id) p =
        removeFromFavourites favs p.id ++ [p] := by
      unfold onToggleFavourite
      rw [if_neg (Bool.eq_false_iff.mp hany)]
      unfold addToFavourites
      rw [if_neg (Bool.eq_false_iff.mp (find?_isSome_false_of_any_false _ _ hany))]
    rw [h1, h3, memberId_append_self]
    unfold memberId
    rw [hm]

/-- C8: image navigation is cyclic — from any valid index of a non-empty
image list, `nextImage` applied `length` times returns to the start, and
`prevImage` undoes `nextImage`. -/
theorem image_navigation_cyclic (images : List String) (i : Nat)
    (h : i < images.length) :
    (nextImage images)^[images.length] i = i ∧
    prevImage images (nextImage images i) = i := by
  have hN : 0 < images.length := Nat.lt_of_le_of_lt (Nat.zero_le i) h
  constructor
  · rw [nextImage_iter images images.length i h, Nat.add_mod_right, Nat.mod_eq_of_lt h]
  · unfold nextImage prevImage
    rw [Nat.add_sub_assoc hN, Nat.mod_add_mod]
    have he : i + 1 + (images.length - 1) = i + images.length := by omega
    rw [he, Nat.add_mod_right, Nat.mod_eq_of_lt h]

/-- Witness for C8 on a three-image gallery starting at index 1. -/
theorem image_navigation_cyclic_witness :
    (nextImage ["a.jpg", "b.jpg", "c.jpg"])^[3] 1 = 1 ∧
    prevImage ["a.jpg", "b.jpg", "c.jpg"] (nextImage ["a.jpg", "b.jpg", "c.jpg"] 1) = 1 := by
  have h := image_navigation_cyclic ["a.jpg", "b.jpg", "c.jpg"] 1 (by decide)
  simpa using h

/-- C9: clearing the favourites without confirmation leaves them
unchanged; clearing with confirmation empties them. -/
theorem clear_requires_confirmation (favs : List Property) :
    clearFavourites false favs = favs ∧ clearFavourites true favs = [] :=
  ⟨rfl, rfl⟩

/-- C10: `removeFromFavourites` removes every entry carrying the given
identifier — even when the list (for instance a corrupt persisted
snapshot) holds duplicates — and keeps every entry with a different
identifier with its multiplicity, in the original relative order (the
result is a sublist of the input). -/
theorem remove_removes_all_occurrences (favs : List Property) (i : Nat) :
    (∀ f ∈ removeFromFavourites favs i, f.id ≠ i) ∧
    (removeFromFavourites favs i).Sublist favs ∧
    (∀ f : Property, f.id ≠ i → (removeFromFavourites favs i).count f = favs.count f) := by
  refine ⟨?_, List.filter_sublist favs, ?_⟩
  · intro f hf
    exact bne_iff_ne.mp (List.mem_filter.mp hf).2
  · intro f hf
    exact List.count_filter (by simpa using hf)

/-- Witness for C10 on a list that holds a duplicated identifier. -/
theorem remove_removes_all_occurrences_witness :
    pA.id ≠ 2 ∧
    (removeFromFavourites [pA, pB, pB] 2).count pA = ([pA, pB, pB] : List Property).count pA :=
  ⟨by decide, (remove_removes_all_occurrences [pA, pB, pB] 2).2.2 pA (by decide)⟩

end PropertySearch
